import Mathlib

/-!
Project CRUD operations (pkg/projects/projects.go).

A shallow embedding of the Go package `projects`: the `Project` entity with its
`Validate`, `AddIdentity` and `GetIdentity` methods, the capability interfaces
(`Adder`, `Getter`, `Deleter`, `Updater`, `ReaderUpdater`, `IdentityGenerator`)
and the five operation factories `New`, `List` (here `ListProjects`), `Get`,
`Delete`, `Update`.

Conventions of the embedding.

* Pointers to freshly allocated values are modelled by the value itself; a
  nillable pointer is an `Option`. A collaborator that fills a value through a
  pointer is a function from the value before the call to the value after it.
* The collaborators (decoder, identity stamper, store, clock) are parameters.
  They share a world state `σ` that every call may read and change, so a later
  call may depend on every earlier one.
* Every operation returns, next to what the Go function returns, the world state
  after the call and the trace of collaborator calls it made, in order.
* The `context.Context` argument is only handed on to the store and is left out.
* The store's write calls (`AddOne`, `Update`) read the item they are given and
  do not change it.
-/

namespace projects

/-! ## Values -/

/-- An instant as read from the clock (`time.Time`), counted in clock ticks. -/
abbrev Time := Nat

/-- The content of an `io.Reader` handed to the decoder. -/
abbrev Data := String

/-- Modelled from the spec: the `Identity` record of package `metadata`, whose
declaration lies outside `projects.go`. The spec lists: opaque unique id, creation
time, creating author, last-update time, last-updating author, object-type tag.
`Update` writes the fields `UpdateTime` and `UpdatedBy`. -/
structure metadata.Identity where
  ID : String
  ObjectType : String
  CreatedBy : String
  CreationTime : Time
  UpdatedBy : String
  UpdateTime : Time
  deriving DecidableEq, Repr

/-- The kinds of error a collaborator may signal (spec, section 7). -/
inductive ErrorKind where
  | decodeError
  | notFoundError
  | storeError
  | identityError
  deriving DecidableEq, Repr

/-- An error value handed back by a collaborator. It is opaque to this package. -/
structure ExtError where
  kind : ErrorKind
  msg : String
  deriving DecidableEq, Repr

/-- Go `error` values as this package sees them. `validation` is what
`metadata.NewValidationError` builds, `errorf` is what `fmt.Errorf` builds inside
this package, `external` is an error value received from a collaborator. The three
are kept apart because a Go error built here is a fresh value, never identical to
one a collaborator returned. The absent error `nil` is `none : Option Error`. -/
inductive Error where
  | validation (msg : String)
  | errorf (msg : String)
  | external (e : ExtError)
  deriving DecidableEq, Repr

/-- Modelled from the spec: `metadata.NewValidationError`, declared outside
`projects.go`; it builds the ValidationError carrying the given message. -/
def metadata.NewValidationError (msg : String) : Error :=
  Error.validation msg

/-- Project represents a umbrella for tests that refer to the same product.
`Project{}` is the value with all defaults. -/
structure Project where
  Identity : Option metadata.Identity := none
  Name : String := ""
  Description : String := ""
  deriving DecidableEq, Repr

/-- AddIdentity sets the identity of the project. -/
def Project.AddIdentity (p : Project) (identity : Option metadata.Identity) : Project :=
  { p with Identity := identity }

/-- GetIdentity returns the identity of the project. -/
def Project.GetIdentity (p : Project) : Option metadata.Identity :=
  p.Identity

/-- Validate checks whether the constraints on Project have been met. -/
def Project.Validate (p : Project) : Option Error :=
  if p.Name = "" then
    some (metadata.NewValidationError "name is a mandatory parameter")
  else
    none

/-- A Go slice: `none` is the nil slice, `some xs` a non-nil slice. -/
abbrev Slice (α : Type) := Option (List α)

/-- The elements of a slice; a nil slice has none. -/
def Slice.elems {α : Type} : Slice α → List α
  | none => []
  | some xs => xs

/-- The builtin `len` on slices. -/
def Slice.len {α : Type} (xs : Slice α) : Nat :=
  xs.elems.length

/-- Values of type `interface{}` that the operations return: the nil interface,
a `*Project` (returned by `New`, `Get`, `Update`) or a `Project` value (the items
of `List`). -/
inductive Any where
  | nil
  | projectPtr (p : Project)
  | projectVal (p : Project)
  deriving DecidableEq, Repr

/-! ## Collaborators -/

/-- A call to a collaborator, with its arguments. -/
inductive Call where
  | decode (data : Data)
  | addMeta (author : String) (objType : String) (item : Project)
  | addOne (item : Project)
  | get (id : String)
  | getAll
  | delete (id : String)
  | update (id : String) (item : Project)
  | timeNow (t : Time)
  deriving DecidableEq, Repr

/-- A collaborator call together with the error it returned. -/
structure Event where
  call : Call
  err : Option ExtError
  deriving DecidableEq, Repr

/-- The package-level functions the operations call: `decoder.Decode(project, data)`,
which fills the project it is given and returns an error, and `time.Now()`. -/
structure Globals (σ : Type) where
  Decode : Project → Data → σ → (Project × Option ExtError) × σ
  Now : σ → Time × σ

/-- Adder: `AddOne(ctx, item) error`. -/
structure Adder (σ : Type) where
  AddOne : Project → σ → Option ExtError × σ

/-- Getter is used to retrieve items from the store: `Get(ctx, id, item) error`
fills `item`, `GetAll(ctx, items) error` fills the slice `items`. -/
structure Getter (σ : Type) where
  Get : String → Project → σ → (Project × Option ExtError) × σ
  GetAll : Slice Project → σ → (Slice Project × Option ExtError) × σ

/-- Deleter deletes an entry from the collection. -/
structure Deleter (σ : Type) where
  Delete : String → σ → Option ExtError × σ

/-- Updater: `Update(ctx, id, item) error`. -/
structure Updater (σ : Type) where
  Update : String → Project → σ → Option ExtError × σ

/-- ReaderUpdater embeds Getter and Updater. -/
structure ReaderUpdater (σ : Type) extends Getter σ, Updater σ

/-- IdentityGenerator: `AddMeta(author, objType, identifiable) error`. The stamper
sees the project only as a `metadata.Identifiable`, that is through `GetIdentity`
and `AddIdentity`: it is given what `GetIdentity` returns and answers with the
arguments of the `AddIdentity` calls it makes, in order, and its error. -/
structure IdentityGenerator (σ : Type) where
  AddMeta : String → String → Option metadata.Identity → σ →
    (List (Option metadata.Identity) × Option ExtError) × σ

/-- What an operation leaves behind: the values the Go function returns, the world
state after the call and the collaborator calls made, oldest first. -/
structure Run (σ : Type) (α : Type) where
  out : α
  state : σ
  trace : List Event

/-- How a call of `Update` ends: it returns the pair `(interface{}, error)` or it
aborts with a run-time panic (nil pointer dereference) and returns nothing. -/
inductive Outcome where
  | returned (v : Any) (err : Option Error)
  | panicked
  deriving DecidableEq, Repr

/-! ## Operations -/

/-- New creates a new project. -/
def New {σ : Type} (g : Globals σ) (ig : IdentityGenerator σ) (store : Adder σ)
    (author : String) (data : Data) (w0 : σ) : Run σ (Any × Option Error) :=
  match g.Decode {} data w0 with
  | ((_, some err), w1) =>
    ⟨(Any.nil, some (Error.external err)), w1, [⟨Call.decode data, some err⟩]⟩
  | ((decoded, none), w1) =>
    match ig.AddMeta author "project" decoded.GetIdentity w1 with
    | ((_, some err), w2) =>
      ⟨(Any.nil, some (Error.external err)), w2,
        [⟨Call.decode data, none⟩, ⟨Call.addMeta author "project" decoded, some err⟩]⟩
    | ((calls, none), w2) =>
      let project := calls.foldl Project.AddIdentity decoded
      match store.AddOne project w2 with
      | (some err, w3) =>
        ⟨(Any.nil, some (Error.external err)), w3,
          [⟨Call.decode data, none⟩, ⟨Call.addMeta author "project" decoded, none⟩,
            ⟨Call.addOne project, some err⟩]⟩
      | (none, w3) =>
        ⟨(Any.projectPtr project, none), w3,
          [⟨Call.decode data, none⟩, ⟨Call.addMeta author "project" decoded, none⟩,
            ⟨Call.addOne project, none⟩]⟩

/-- List returns a function used to return the projects. (Named `ListProjects`
here, as `List` is the type of lists.) The slice handed to `GetAll` is the empty
non-nil `[]Project{}`; `items` is made with `len(projects)` nil entries and the
loop `for i, v := range projects` stores `v` at index `i`. -/
def ListProjects {σ : Type} (collection : Getter σ) (w0 : σ) :
    Run σ (Slice Any × Option Error) :=
  match collection.GetAll (some []) w0 with
  | ((_, some err), w1) => ⟨(none, some (Error.external err)), w1, [⟨Call.getAll, some err⟩]⟩
  | ((projects, none), w1) =>
    let items : List Any := List.replicate projects.len Any.nil
    let items := projects.elems.enum.foldl
      (fun items iv => items.set iv.1 (Any.projectVal iv.2)) items
    ⟨(some items, none), w1, [⟨Call.getAll, none⟩]⟩

/-- Get returns a scenario based on the passed ID. -/
def Get {σ : Type} (collectiom : Getter σ) (id : String) (w0 : σ) :
    Run σ (Any × Option Error) :=
  match collectiom.Get id {} w0 with
  | ((_, some err), w1) => ⟨(Any.nil, some (Error.external err)), w1, [⟨Call.get id, some err⟩]⟩
  | ((project, none), w1) => ⟨(Any.projectPtr project, none), w1, [⟨Call.get id, none⟩]⟩

/-- Delete returns a function to delete a scenario based on the passed ID. -/
def Delete {σ : Type} (collection : Deleter σ) (id : String) (w0 : σ) : Run σ (Option Error) :=
  match collection.Delete id w0 with
  | (some err, w1) => ⟨some (Error.external err), w1, [⟨Call.delete id, some err⟩]⟩
  | (none, w1) => ⟨none, w1, [⟨Call.delete id, none⟩]⟩

/-- Update is used to replace a scenario with the provided scenario. In the
assignment `project.Identity.UpdateTime = time.Now()` the right-hand side is
evaluated before the store through `project.Identity` is carried out, so the clock
is read before a nil Identity aborts the call. The type assertion
`foundProject.(*Project)` succeeds on a `*Project` only. -/
def Update {σ : Type} (g : Globals σ) (collection : ReaderUpdater σ)
    (user : String) (id : String) (data : Data) (w0 : σ) : Run σ Outcome :=
  match g.Decode {} data w0 with
  | ((_, some err), w1) =>
    ⟨Outcome.returned Any.nil (some (Error.external err)), w1, [⟨Call.decode data, some err⟩]⟩
  | ((decoded, none), w1) =>
    let found := Get collection.toGetter id w1
    let tr := ⟨Call.decode data, none⟩ :: found.trace
    match found.out with
    | (_, some err) => ⟨Outcome.returned Any.nil (some err), found.state, tr⟩
    | (foundProject, none) =>
      match foundProject with
      | Any.projectPtr s =>
        let project : Project := { decoded with Identity := s.Identity }
        match g.Now found.state with
        | (now, w3) =>
          match project.Identity with
          | none => ⟨Outcome.panicked, w3, tr ++ [⟨Call.timeNow now, none⟩]⟩
          | some identity =>
            let project : Project :=
              { project with
                Identity := some { identity with UpdateTime := now, UpdatedBy := user } }
            match collection.Update id project w3 with
            | (some err, w4) =>
              ⟨Outcome.returned Any.nil (some (Error.external err)), w4,
                tr ++ [⟨Call.timeNow now, none⟩, ⟨Call.update id project, some err⟩]⟩
            | (none, w4) =>
              ⟨Outcome.returned (Any.projectPtr project) none, w4,
                tr ++ [⟨Call.timeNow now, none⟩, ⟨Call.update id project, none⟩]⟩
      | _ =>
        ⟨Outcome.returned Any.nil (some (Error.errorf "invalid data structure in DB")),
          found.state, tr⟩

/-! ## Reading a trace -/

/-- The error of the first call of a trace that failed, if any did. -/
def firstFailure : List Event → Option ExtError
  | [] => none
  | ev :: rest =>
    match ev.err with
    | some e => some e
    | none => firstFailure rest

/-- The items handed to the stamper `AddMeta`, with author and object type, in order. -/
def stamperCalls : List Event → List (String × String × Project)
  | [] => []
  | ⟨Call.addMeta author objType item, _⟩ :: rest => (author, objType, item) :: stamperCalls rest
  | _ :: rest => stamperCalls rest

/-- The items handed to the store's `AddOne`, in order. -/
def addOneCalls : List Event → List Project
  | [] => []
  | ⟨Call.addOne item, _⟩ :: rest => item :: addOneCalls rest
  | _ :: rest => addOneCalls rest

/-- The ids and items handed to the store's `Update`, in order. -/
def updateCalls : List Event → List (String × Project)
  | [] => []
  | ⟨Call.update id item, _⟩ :: rest => (id, item) :: updateCalls rest
  | _ :: rest => updateCalls rest

/-- The ids handed to the store's `Get`, in order. -/
def getCalls : List Event → List String
  | [] => []
  | ⟨Call.get id, _⟩ :: rest => id :: getCalls rest
  | _ :: rest => getCalls rest

/-- The error of the last call of a trace. -/
def lastError (tr : List Event) : Option ExtError :=
  match tr.getLast? with
  | some ev => ev.err
  | none => none

/-- Whether the error `e` an operation returned is the error value of a collaborator
call of the trace `tr`, unchanged: `e` is the value the first failing call returned,
and that call is the last one made. -/
def passedThrough (tr : List Event) (e : Error) : Bool :=
  match e with
  | Error.external x => firstFailure tr == some x && lastError tr == some x
  | _ => false

/-- The record `Update` hands to the store and returns: content of the decoded
payload, identity of the stored record with update time and author stamped. Used
only to state results. -/
def updatedItem (decoded : Project) (identity : metadata.Identity) (user : String)
    (now : Time) : Project :=
  ⟨some { identity with UpdateTime := now, UpdatedBy := user }, decoded.Name, decoded.Description⟩

/-! ## A small world to run the operations in

An in-memory store, a table-driven decoder, a counting clock and a stamper that
hands out one fixed identity. -/

/-- The state of the small world: the clock and the stored records. -/
structure Mem where
  clock : Time
  records : List Project
  deriving DecidableEq, Repr

/-- An identity a client may try to smuggle in through a payload. -/
def forgedIdentity : metadata.Identity :=
  ⟨"forged", "project", "mallory", 0, "mallory", 0⟩

/-- The identity of the record the small world starts with. -/
def aliceIdentity : metadata.Identity :=
  ⟨"p1", "project", "alice", 3, "alice", 3⟩

/-- The decoder of the small world knows four payloads; every other one is malformed. -/
def memGlobals : Globals Mem where
  Decode project data w :=
    if data = "checkout" then
      (({ project with Name := "Checkout v2", Description := "e2e" }, none), w)
    else if data = "checkout+identity" then
      ((⟨some forgedIdentity, "Checkout v2", "e2e"⟩, none), w)
    else if data = "unnamed" then
      (({ project with Description := "no name given" }, none), w)
    else
      ((project, some ⟨ErrorKind.decodeError, "malformed payload"⟩), w)
  Now w := (w.clock + 1, { w with clock := w.clock + 1 })

/-- Whether a record carries the given id. -/
def hasID (id : String) (p : Project) : Bool :=
  match p.Identity with
  | some identity => identity.ID == id
  | none => false

/-- The in-memory store: reading. -/
def memGetter : Getter Mem where
  Get id item w :=
    match w.records.find? (hasID id) with
    | some r => ((r, none), w)
    | none => ((item, some ⟨ErrorKind.notFoundError, "no such project"⟩), w)
  GetAll _ w := ((some w.records, none), w)

/-- The in-memory store: reading and replacing. -/
def memStore : ReaderUpdater Mem where
  toGetter := memGetter
  Update id item w :=
    if w.records.any (hasID id) then
      (none, { w with records := w.records.map fun r => if hasID id r then item else r })
    else
      (some ⟨ErrorKind.notFoundError, "no such project"⟩, w)

/-- The in-memory store: adding. -/
def memAdder : Adder Mem where
  AddOne item w := (none, { w with records := w.records ++ [item] })

/-- The in-memory store: deleting. -/
def memDeleter : Deleter Mem where
  Delete id w :=
    if w.records.any (hasID id) then
      (none, { w with records := w.records.filter fun r => !hasID id r })
    else
      (some ⟨ErrorKind.notFoundError, "no such project"⟩, w)

/-- The stamper of the small world: it refuses an empty author and otherwise sets
one identity created by the author at the current clock reading. -/
def memStamper : IdentityGenerator Mem where
  AddMeta author objType _ w :=
    if author = "" then
      (([], some ⟨ErrorKind.identityError, "no author"⟩), w)
    else
      (([some ⟨"p2", objType, author, w.clock, author, w.clock⟩], none), w)

/-- A store whose every call fails with a backend error. -/
def brokenStore : ReaderUpdater Mem where
  Get _ item w := ((item, some ⟨ErrorKind.storeError, "backend down"⟩), w)
  GetAll items w := ((items, some ⟨ErrorKind.storeError, "backend down"⟩), w)
  Update _ _ w := (some ⟨ErrorKind.storeError, "backend down"⟩, w)

/-- A world with one stamped record and one record that was never stamped. -/
def mem0 : Mem :=
  ⟨7, [⟨some aliceIdentity, "Checkout", "first"⟩, ⟨none, "Draft", "unstamped"⟩]⟩

/-- A world like `mem0` whose record p1 has another name and description. -/
def mem1 : Mem :=
  ⟨7, [⟨some aliceIdentity, "Old name", "old text"⟩]⟩

/-- A store that answers every `Get` with a record that has no identity. -/
def unstampedStore : ReaderUpdater Mem where
  Get _ item w := (({ item with Name := "Draft", Description := "unstamped" }, none), w)
  GetAll _ w := ((some w.records, none), w)
  Update _ _ w := (none, w)

/-! ## Validation -/

/-- C1. For every project, whatever its Description and Identity (nil included),
`Validate` returns the validation error exactly when Name is the empty string, and
returns nil exactly when Name is non-empty. -/
theorem Validate_fails_iff_name_empty (identity : Option metadata.Identity)
    (name description : String) :
    (Project.Validate ⟨identity, name, description⟩
        = some (Error.validation "name is a mandatory parameter") ↔ name = "") ∧
    ((∃ e, Project.Validate ⟨identity, name, description⟩ = some e) ↔ name = "") ∧
    (Project.Validate ⟨identity, name, description⟩ = none ↔ name ≠ "") := by
  unfold Project.Validate metadata.NewValidationError
  by_cases h : name = "" <;> simp [h]

/-- C1 at two projects with a nil Identity: one unnamed, one named. -/
theorem Validate_fails_iff_name_empty_witness :
    Project.Validate ⟨none, "", "d"⟩ = some (Error.validation "name is a mandatory parameter") ∧
    Project.Validate ⟨none, "n", ""⟩ = none :=
  ⟨(Validate_fails_iff_name_empty none "" "d").1.2 rfl,
    (Validate_fails_iff_name_empty none "n" "").2.2.2 (by decide)⟩

/-! ## Update -/

/-- The run of `Update` when decode, Get (with a non-nil Identity), the clock and
the store's Update all go through. -/
theorem Update_success_run {σ : Type} (g : Globals σ) (collection : ReaderUpdater σ)
    (user id : String) (data : Data) (w0 w1 w2 w3 w4 : σ) (decoded stored : Project)
    (identity : metadata.Identity) (now : Time) (uerr : Option ExtError)
    (hdec : g.Decode {} data w0 = ((decoded, none), w1))
    (hget : collection.Get id {} w1 = ((stored, none), w2))
    (hid : stored.Identity = some identity)
    (hnow : g.Now w2 = (now, w3))
    (hupd : collection.Update id (updatedItem decoded identity user now) w3 = (uerr, w4)) :
    Update g collection user id data w0 =
      ⟨uerr.elim (Outcome.returned (Any.projectPtr (updatedItem decoded identity user now)) none)
        (fun err => Outcome.returned Any.nil (some (Error.external err))),
       w4,
       [⟨Call.decode data, none⟩, ⟨Call.get id, none⟩, ⟨Call.timeNow now, none⟩,
        ⟨Call.update id (updatedItem decoded identity user now), uerr⟩]⟩ := by
  unfold updatedItem at hupd
  cases uerr <;> simp [Update, Get, hdec, hget, hid, hnow, hupd, updatedItem]

/-- The run of `Update` when decode and Get go through and the fetched record has a
nil Identity: the clock is read, then the write through the nil pointer aborts. -/
theorem Update_nil_identity_run {σ : Type} (g : Globals σ) (collection : ReaderUpdater σ)
    (user id : String) (data : Data) (w0 w1 w2 w3 : σ) (decoded stored : Project) (now : Time)
    (hdec : g.Decode {} data w0 = ((decoded, none), w1))
    (hget : collection.Get id {} w1 = ((stored, none), w2))
    (hid : stored.Identity = none)
    (hnow : g.Now w2 = (now, w3)) :
    Update g collection user id data w0 =
      ⟨Outcome.panicked, w3,
       [⟨Call.decode data, none⟩, ⟨Call.get id, none⟩, ⟨Call.timeNow now, none⟩]⟩ := by
  simp [Update, Get, hdec, hget, hid, hnow]

/-- The run of `Update` when the decoder fails. -/
theorem Update_decode_failure_run {σ : Type} (g : Globals σ) (collection : ReaderUpdater σ)
    (user id : String) (data : Data) (w0 w1 : σ) (junk : Project) (err : ExtError)
    (hdec : g.Decode {} data w0 = ((junk, some err), w1)) :
    Update g collection user id data w0 =
      ⟨Outcome.returned Any.nil (some (Error.external err)), w1,
       [⟨Call.decode data, some err⟩]⟩ := by
  simp [Update, hdec]

/-- The run of `Update` when decode goes through and the store's Get fails. -/
theorem Update_get_failure_run {σ : Type} (g : Globals σ) (collection : ReaderUpdater σ)
    (user id : String) (data : Data) (w0 w1 w2 : σ) (decoded junk : Project) (err : ExtError)
    (hdec : g.Decode {} data w0 = ((decoded, none), w1))
    (hget : collection.Get id {} w1 = ((junk, some err), w2)) :
    Update g collection user id data w0 =
      ⟨Outcome.returned Any.nil (some (Error.external err)), w2,
       [⟨Call.decode data, none⟩, ⟨Call.get id, some err⟩]⟩ := by
  simp [Update, Get, hdec, hget]

/-- Setting the identity any number of times leaves Name and Description alone. -/
theorem foldl_AddIdentity_content (calls : List (Option metadata.Identity)) (p : Project) :
    (calls.foldl Project.AddIdentity p).Name = p.Name ∧
    (calls.foldl Project.AddIdentity p).Description = p.Description := by
  induction calls generalizing p with
  | nil => exact ⟨rfl, rfl⟩
  | cons c rest ih =>
    have h := ih (p.AddIdentity c)
    simpa [Project.AddIdentity] using h

/-- The run of `New` once the decoder went through: the stamper is called, and the
store is called if the stamper did not fail. -/
theorem New_decoded_run {σ : Type} (g : Globals σ) (ig : IdentityGenerator σ) (store : Adder σ)
    (author : String) (data : Data) (w0 w1 w2 : σ) (decoded : Project)
    (calls : List (Option metadata.Identity)) (serr : Option ExtError)
    (hdec : g.Decode {} data w0 = ((decoded, none), w1))
    (hst : ig.AddMeta author "project" decoded.GetIdentity w1 = ((calls, serr), w2)) :
    New g ig store author data w0 =
      serr.elim
        ⟨(store.AddOne (calls.foldl Project.AddIdentity decoded) w2).1.elim
            (Any.projectPtr (calls.foldl Project.AddIdentity decoded), none)
            (fun err => (Any.nil, some (Error.external err))),
          (store.AddOne (calls.foldl Project.AddIdentity decoded) w2).2,
          [⟨Call.decode data, none⟩, ⟨Call.addMeta author "project" decoded, none⟩,
           ⟨Call.addOne (calls.foldl Project.AddIdentity decoded),
            (store.AddOne (calls.foldl Project.AddIdentity decoded) w2).1⟩]⟩
        (fun err =>
          ⟨(Any.nil, some (Error.external err)), w2,
           [⟨Call.decode data, none⟩, ⟨Call.addMeta author "project" decoded, some err⟩]⟩) := by
  cases serr with
  | some err => simp [New, hdec, hst]
  | none =>
    rcases hadd : store.AddOne (calls.foldl Project.AddIdentity decoded) w2 with ⟨_ | err, w3⟩ <;>
      simp [New, hdec, hst, hadd]

/-- The run of `New` when the decoder fails. -/
theorem New_decode_failure_run {σ : Type} (g : Globals σ) (ig : IdentityGenerator σ)
    (store : Adder σ) (author : String) (data : Data) (w0 w1 : σ) (junk : Project)
    (err : ExtError) (hdec : g.Decode {} data w0 = ((junk, some err), w1)) :
    New g ig store author data w0 =
      ⟨(Any.nil, some (Error.external err)), w1, [⟨Call.decode data, some err⟩]⟩ := by
  simp [New, hdec]

/-- C2. When decoding succeeds, the store's Get succeeds with a record whose
Identity is non-nil and the store's Update succeeds on the item it is handed,
`Update` returns an entity with no error; the identity of that entity has the id,
creation time, creating author and object-type tag of the stored record's identity,
its UpdatedBy is the supplied user and its UpdateTime is the instant the clock gave
during the call. -/
theorem Update_preserves_identity {σ : Type} (g : Globals σ) (collection : ReaderUpdater σ)
    (user id : String) (data : Data) (w0 w1 w2 w3 w4 : σ) (decoded stored : Project)
    (identity : metadata.Identity) (now : Time)
    (hdec : g.Decode {} data w0 = ((decoded, none), w1))
    (hget : collection.Get id {} w1 = ((stored, none), w2))
    (hid : stored.Identity = some identity)
    (hnow : g.Now w2 = (now, w3))
    (hupd : collection.Update id (updatedItem decoded identity user now) w3 = (none, w4)) :
    ∃ (p : Project) (updated : metadata.Identity),
      (Update g collection user id data w0).out = Outcome.returned (Any.projectPtr p) none ∧
      p.Identity = some updated ∧
      updated.ID = identity.ID ∧
      updated.CreationTime = identity.CreationTime ∧
      updated.CreatedBy = identity.CreatedBy ∧
      updated.ObjectType = identity.ObjectType ∧
      updated.UpdatedBy = user ∧
      updated.UpdateTime = now := by
  refine ⟨updatedItem decoded identity user now,
    { identity with UpdateTime := now, UpdatedBy := user }, ?_, rfl, rfl, rfl, rfl, rfl, rfl, rfl⟩
  rw [Update_success_run g collection user id data w0 w1 w2 w3 w4 decoded stored identity now
    none hdec hget hid hnow hupd]
  rfl

/-- C2 in the small world: bob updates alice's project p1 at clock reading 8. -/
theorem Update_preserves_identity_witness :
    (Update memGlobals memStore "bob" "p1" "checkout" mem0).out
      = Outcome.returned
          (Any.projectPtr ⟨some ⟨"p1", "project", "alice", 3, "bob", 8⟩, "Checkout v2", "e2e"⟩)
          none ∧
    ∃ (p : Project) (updated : metadata.Identity),
      (Update memGlobals memStore "bob" "p1" "checkout" mem0).out
        = Outcome.returned (Any.projectPtr p) none ∧
      p.Identity = some updated ∧
      updated.ID = aliceIdentity.ID ∧
      updated.CreationTime = aliceIdentity.CreationTime ∧
      updated.CreatedBy = aliceIdentity.CreatedBy ∧
      updated.ObjectType = aliceIdentity.ObjectType ∧
      updated.UpdatedBy = "bob" ∧
      updated.UpdateTime = 8 :=
  ⟨by decide,
    Update_preserves_identity memGlobals memStore "bob" "p1" "checkout" mem0 mem0 mem0
      ⟨8, mem0.records⟩
      ⟨8, [⟨some ⟨"p1", "project", "alice", 3, "bob", 8⟩, "Checkout v2", "e2e"⟩,
        ⟨none, "Draft", "unstamped"⟩]⟩
      ⟨none, "Checkout v2", "e2e"⟩ ⟨some aliceIdentity, "Checkout", "first"⟩ aliceIdentity 8
      (by decide) (by decide) rfl (by decide) (by decide)⟩

/-- C3. The item `Update` hands to the store's Update and returns is made of the
Name and Description of the decoded payload and of the Identity of the stored record
(stamped with user and clock reading), and of nothing else: two successful calls
whose payloads decode to the same Name and Description (whatever Identity they
decode to) and whose stored records carry the same Identity (whatever their Name
and Description), with the same user and clock reading, hand the same item to the
store and return it. -/
theorem Update_item_from_payload_content_and_stored_identity {σ : Type}
    (gA gB : Globals σ) (cA cB : ReaderUpdater σ) (user id : String) (dataA dataB : Data)
    (a0 a1 a2 a3 a4 b0 b1 b2 b3 b4 : σ) (decodedA decodedB storedA storedB : Project)
    (identity : metadata.Identity) (now : Time)
    (hdecA : gA.Decode {} dataA a0 = ((decodedA, none), a1))
    (hdecB : gB.Decode {} dataB b0 = ((decodedB, none), b1))
    (hname : decodedA.Name = decodedB.Name)
    (hdesc : decodedA.Description = decodedB.Description)
    (hgetA : cA.Get id {} a1 = ((storedA, none), a2))
    (hgetB : cB.Get id {} b1 = ((storedB, none), b2))
    (hidA : storedA.Identity = some identity)
    (hidB : storedB.Identity = some identity)
    (hnowA : gA.Now a2 = (now, a3))
    (hnowB : gB.Now b2 = (now, b3))
    (hupdA : cA.Update id (updatedItem decodedA identity user now) a3 = (none, a4))
    (hupdB : cB.Update id (updatedItem decodedB identity user now) b3 = (none, b4)) :
    ∃ item : Project,
      item.Name = decodedA.Name ∧ item.Description = decodedA.Description ∧
      item.Identity = some { identity with UpdateTime := now, UpdatedBy := user } ∧
      (Update gA cA user id dataA a0).out = Outcome.returned (Any.projectPtr item) none ∧
      (Update gB cB user id dataB b0).out = Outcome.returned (Any.projectPtr item) none ∧
      updateCalls (Update gA cA user id dataA a0).trace = [(id, item)] ∧
      updateCalls (Update gB cB user id dataB b0).trace = [(id, item)] := by
  have hitem : updatedItem decodedB identity user now = updatedItem decodedA identity user now := by
    simp [updatedItem, hname, hdesc]
  rw [hitem] at hupdB
  rw [Update_success_run gA cA user id dataA a0 a1 a2 a3 a4 decodedA storedA identity now
      none hdecA hgetA hidA hnowA hupdA]
  have hB := Update_success_run gB cB user id dataB b0 b1 b2 b3 b4 decodedB storedB identity now
      none hdecB hgetB hidB hnowB (hitem ▸ hupdB)
  rw [hB, hitem]
  exact ⟨updatedItem decodedA identity user now, rfl, rfl, rfl, rfl, rfl, rfl, rfl⟩

/-- C3 in the small world: a payload with a forged identity against a store whose
record p1 reads "Old name", and a payload without identity against a store whose
record p1 reads "Checkout", write and return the same item. -/
theorem Update_item_from_payload_content_and_stored_identity_witness :
    ((memGlobals.Decode {} "checkout" mem0).1.1.Identity = none ∧
      (memGlobals.Decode {} "checkout+identity" mem1).1.1.Identity = some forgedIdentity) ∧
    ∃ item : Project,
      item.Name = "Checkout v2" ∧ item.Description = "e2e" ∧
      item.Identity = some { aliceIdentity with UpdateTime := 8, UpdatedBy := "bob" } ∧
      (Update memGlobals memStore "bob" "p1" "checkout" mem0).out
        = Outcome.returned (Any.projectPtr item) none ∧
      (Update memGlobals memStore "bob" "p1" "checkout+identity" mem1).out
        = Outcome.returned (Any.projectPtr item) none ∧
      updateCalls (Update memGlobals memStore "bob" "p1" "checkout" mem0).trace
        = [("p1", item)] ∧
      updateCalls (Update memGlobals memStore "bob" "p1" "checkout+identity" mem1).trace
        = [("p1", item)] :=
  ⟨by decide,
    Update_item_from_payload_content_and_stored_identity memGlobals memGlobals memStore memStore
      "bob" "p1" "checkout" "checkout+identity"
      mem0 mem0 mem0 ⟨8, mem0.records⟩
      ⟨8, [⟨some ⟨"p1", "project", "alice", 3, "bob", 8⟩, "Checkout v2", "e2e"⟩,
        ⟨none, "Draft", "unstamped"⟩]⟩
      mem1 mem1 mem1 ⟨8, mem1.records⟩
      ⟨8, [⟨some ⟨"p1", "project", "alice", 3, "bob", 8⟩, "Checkout v2", "e2e"⟩]⟩
      ⟨none, "Checkout v2", "e2e"⟩ ⟨some forgedIdentity, "Checkout v2", "e2e"⟩
      ⟨some aliceIdentity, "Checkout", "first"⟩ ⟨some aliceIdentity, "Old name", "old text"⟩
      aliceIdentity 8
      (by decide) (by decide) rfl rfl (by decide) (by decide) rfl rfl (by decide) (by decide)
      (by decide) (by decide)⟩

/-- C4. When the payload decodes and the store's Get fails for the id, `Update`
returns a nil entity together with exactly the error Get returned, and the store's
Update is not called: the calls made are the decode and the failed Get, and the
world is left as Get left it. -/
theorem Update_get_failure_no_write {σ : Type} (g : Globals σ) (collection : ReaderUpdater σ)
    (user id : String) (data : Data) (w0 w1 w2 : σ) (decoded junk : Project) (err : ExtError)
    (hdec : g.Decode {} data w0 = ((decoded, none), w1))
    (hget : collection.Get id {} w1 = ((junk, some err), w2)) :
    (Update g collection user id data w0).out
      = Outcome.returned Any.nil (some (Error.external err)) ∧
    (Update g collection user id data w0).trace
      = [⟨Call.decode data, none⟩, ⟨Call.get id, some err⟩] ∧
    updateCalls (Update g collection user id data w0).trace = [] ∧
    (Update g collection user id data w0).state = w2 := by
  rw [Update_get_failure_run g collection user id data w0 w1 w2 decoded junk err hdec hget]
  exact ⟨rfl, rfl, rfl, rfl⟩

/-- C4 in the small world: no record has the id p9. -/
theorem Update_get_failure_no_write_witness :
    (Update memGlobals memStore "bob" "p9" "checkout" mem0).out
      = Outcome.returned Any.nil
          (some (Error.external ⟨ErrorKind.notFoundError, "no such project"⟩)) ∧
    (Update memGlobals memStore "bob" "p9" "checkout" mem0).trace
      = [⟨Call.decode "checkout", none⟩,
         ⟨Call.get "p9", some ⟨ErrorKind.notFoundError, "no such project"⟩⟩] ∧
    updateCalls (Update memGlobals memStore "bob" "p9" "checkout" mem0).trace = [] ∧
    (Update memGlobals memStore "bob" "p9" "checkout" mem0).state = mem0 :=
  Update_get_failure_no_write memGlobals memStore "bob" "p9" "checkout" mem0 mem0 mem0
    ⟨none, "Checkout v2", "e2e"⟩ {} ⟨ErrorKind.notFoundError, "no such project"⟩
    (by decide) (by decide)

/-- C5. When the decoder fails, `New` and `Update` both return a nil entity and the
decoder's error; the only collaborator call made is the decode, so neither the
stamper nor any store capability is called, and the world is left as the decoder
left it. -/
theorem decode_failure_short_circuits {σ : Type} (g : Globals σ) (ig : IdentityGenerator σ)
    (store : Adder σ) (collection : ReaderUpdater σ) (author user id : String) (data : Data)
    (w0 w1 : σ) (junk : Project) (err : ExtError)
    (hdec : g.Decode {} data w0 = ((junk, some err), w1)) :
    (New g ig store author data w0).out = (Any.nil, some (Error.external err)) ∧
    (New g ig store author data w0).trace = [⟨Call.decode data, some err⟩] ∧
    (New g ig store author data w0).state = w1 ∧
    (Update g collection user id data w0).out
      = Outcome.returned Any.nil (some (Error.external err)) ∧
    (Update g collection user id data w0).trace = [⟨Call.decode data, some err⟩] ∧
    (Update g collection user id data w0).state = w1 := by
  rw [New_decode_failure_run g ig store author data w0 w1 junk err hdec,
    Update_decode_failure_run g collection user id data w0 w1 junk err hdec]
  exact ⟨rfl, rfl, rfl, rfl, rfl, rfl⟩

/-- C5 in the small world: the payload "garbage" is malformed. -/
theorem decode_failure_short_circuits_witness :
    (New memGlobals memStamper memAdder "alice" "garbage" mem0).out
      = (Any.nil, some (Error.external ⟨ErrorKind.decodeError, "malformed payload"⟩)) ∧
    (New memGlobals memStamper memAdder "alice" "garbage" mem0).trace
      = [⟨Call.decode "garbage", some ⟨ErrorKind.decodeError, "malformed payload"⟩⟩] ∧
    (New memGlobals memStamper memAdder "alice" "garbage" mem0).state = mem0 ∧
    (Update memGlobals memStore "bob" "p1" "garbage" mem0).out
      = Outcome.returned Any.nil
          (some (Error.external ⟨ErrorKind.decodeError, "malformed payload"⟩)) ∧
    (Update memGlobals memStore "bob" "p1" "garbage" mem0).trace
      = [⟨Call.decode "garbage", some ⟨ErrorKind.decodeError, "malformed payload"⟩⟩] ∧
    (Update memGlobals memStore "bob" "p1" "garbage" mem0).state = mem0 :=
  decode_failure_short_circuits memGlobals memStamper memAdder memStore "alice" "bob" "p1"
    "garbage" mem0 mem0 {} ⟨ErrorKind.decodeError, "malformed payload"⟩ (by decide)

/-- C10. Once the payload is decoded, the record fetched and the clock read, the
write to `project.Identity.UpdateTime` goes through exactly when the fetched record
has a non-nil Identity. With a non-nil Identity the call does not abort and reaches
the store's Update, handing it the stamped item. With a nil Identity (a project that
was never stamped) the call aborts on the nil dereference: it returns neither an
entity nor an error and the store's Update is not called. -/
theorem Update_safe_iff_identity_present {σ : Type} (g : Globals σ)
    (collection : ReaderUpdater σ) (user id : String) (data : Data) (w0 w1 w2 w3 : σ)
    (decoded stored : Project) (now : Time)
    (hdec : g.Decode {} data w0 = ((decoded, none), w1))
    (hget : collection.Get id {} w1 = ((stored, none), w2))
    (hnow : g.Now w2 = (now, w3)) :
    (∀ identity, stored.Identity = some identity →
      (Update g collection user id data w0).out ≠ Outcome.panicked ∧
      updateCalls (Update g collection user id data w0).trace
        = [(id, updatedItem decoded identity user now)]) ∧
    (stored.Identity = none →
      (Update g collection user id data w0).out = Outcome.panicked ∧
      updateCalls (Update g collection user id data w0).trace = [] ∧
      (Update g collection user id data w0).trace
        = [⟨Call.decode data, none⟩, ⟨Call.get id, none⟩, ⟨Call.timeNow now, none⟩]) := by
  constructor
  · intro identity hid
    rcases hupd : collection.Update id (updatedItem decoded identity user now) w3
      with ⟨uerr, w4⟩
    rw [Update_success_run g collection user id data w0 w1 w2 w3 w4 decoded stored identity now
      uerr hdec hget hid hnow hupd]
    cases uerr <;> simp [updateCalls]
  · intro hid
    rw [Update_nil_identity_run g collection user id data w0 w1 w2 w3 decoded stored now
      hdec hget hid hnow]
    exact ⟨rfl, rfl, rfl⟩

/-- C10 in the small world: against the store that hands out an unstamped record
the call aborts; against the in-memory store, record p1, it writes. -/
theorem Update_safe_iff_identity_present_witness :
    ((Update memGlobals unstampedStore "bob" "p1" "checkout" mem0).out = Outcome.panicked ∧
      updateCalls (Update memGlobals unstampedStore "bob" "p1" "checkout" mem0).trace = [] ∧
      (Update memGlobals unstampedStore "bob" "p1" "checkout" mem0).trace
        = [⟨Call.decode "checkout", none⟩, ⟨Call.get "p1", none⟩, ⟨Call.timeNow 8, none⟩]) ∧
    ((Update memGlobals memStore "bob" "p1" "checkout" mem0).out ≠ Outcome.panicked ∧
      updateCalls (Update memGlobals memStore "bob" "p1" "checkout" mem0).trace
        = [("p1", updatedItem ⟨none, "Checkout v2", "e2e"⟩ aliceIdentity "bob" 8)]) :=
  ⟨(Update_safe_iff_identity_present memGlobals unstampedStore "bob" "p1" "checkout"
      mem0 mem0 mem0 ⟨8, mem0.records⟩ ⟨none, "Checkout v2", "e2e"⟩
      ⟨none, "Draft", "unstamped"⟩ 8 (by decide) (by decide) (by decide)).2 rfl,
    (Update_safe_iff_identity_present memGlobals memStore "bob" "p1" "checkout"
      mem0 mem0 mem0 ⟨8, mem0.records⟩ ⟨none, "Checkout v2", "e2e"⟩
      ⟨some aliceIdentity, "Checkout", "first"⟩ 8 (by decide) (by decide) (by decide)).1
      aliceIdentity rfl⟩

/-! ## New -/

/-- C6. Once the payload is decoded, `New` calls the stamper exactly once, with the
author, the object type "project" and the decoded entity; it does not call it when
the decode failed. It calls the store's AddOne exactly once, with the stamped
entity, if decode and stamping both succeeded, and not at all otherwise (so never
when the stamper fails). When AddOne succeeds too, the entity returned is the
stamped entity that was handed to AddOne. -/
theorem New_stamps_once_then_stores_once {σ : Type} (g : Globals σ) (ig : IdentityGenerator σ)
    (store : Adder σ) (author : String) (data : Data) (w0 w1 w2 : σ) (decoded : Project)
    (derr serr : Option ExtError) (calls : List (Option metadata.Identity))
    (hdec : g.Decode {} data w0 = ((decoded, derr), w1))
    (hst : ig.AddMeta author "project" decoded.GetIdentity w1 = ((calls, serr), w2)) :
    (stamperCalls (New g ig store author data w0).trace
      = if derr = none then [(author, "project", decoded)] else []) ∧
    (addOneCalls (New g ig store author data w0).trace
      = if derr = none ∧ serr = none then [calls.foldl Project.AddIdentity decoded] else []) ∧
    (serr ≠ none → addOneCalls (New g ig store author data w0).trace = []) ∧
    (derr = none → serr = none →
      (store.AddOne (calls.foldl Project.AddIdentity decoded) w2).1 = none →
      (New g ig store author data w0).out
        = (Any.projectPtr (calls.foldl Project.AddIdentity decoded), none)) := by
  cases derr with
  | some e =>
    rw [New_decode_failure_run g ig store author data w0 w1 decoded e hdec]
    simp [stamperCalls, addOneCalls]
  | none =>
    rw [New_decoded_run g ig store author data w0 w1 w2 decoded calls serr hdec hst]
    cases serr with
    | some e => simp [stamperCalls, addOneCalls]
    | none =>
      refine ⟨by simp [stamperCalls], by simp [addOneCalls], by simp, ?_⟩
      intro _ _ hadd
      simp [hadd]

/-- C6 in the small world: alice creates a project at clock reading 7. -/
theorem New_stamps_once_then_stores_once_witness :
    (New memGlobals memStamper memAdder "alice" "checkout" mem0).out
      = (Any.projectPtr ⟨some ⟨"p2", "project", "alice", 7, "alice", 7⟩, "Checkout v2", "e2e"⟩,
          none) ∧
    stamperCalls (New memGlobals memStamper memAdder "alice" "checkout" mem0).trace
      = [("alice", "project", ⟨none, "Checkout v2", "e2e"⟩)] ∧
    addOneCalls (New memGlobals memStamper memAdder "alice" "checkout" mem0).trace
      = [⟨some ⟨"p2", "project", "alice", 7, "alice", 7⟩, "Checkout v2", "e2e"⟩] :=
  ⟨(New_stamps_once_then_stores_once memGlobals memStamper memAdder "alice" "checkout"
      mem0 mem0 mem0 ⟨none, "Checkout v2", "e2e"⟩ none none
      [some ⟨"p2", "project", "alice", 7, "alice", 7⟩] (by decide) (by decide)).2.2.2
      rfl rfl (by decide),
    (New_stamps_once_then_stores_once memGlobals memStamper memAdder "alice" "checkout"
      mem0 mem0 mem0 ⟨none, "Checkout v2", "e2e"⟩ none none
      [some ⟨"p2", "project", "alice", 7, "alice", 7⟩] (by decide) (by decide)).1,
    (New_stamps_once_then_stores_once memGlobals memStamper memAdder "alice" "checkout"
      mem0 mem0 mem0 ⟨none, "Checkout v2", "e2e"⟩ none none
      [some ⟨"p2", "project", "alice", 7, "alice", 7⟩] (by decide) (by decide)).2.1⟩

/-- C9. Neither `New` nor `Update` calls `Validate`. When the payload decodes to a
project with an empty Name and the stamper and the store calls succeed (for `Update`:
Get succeeds with a stamped record and the store's Update succeeds on the item it
is handed), `New` hands a project with the empty Name to AddOne and returns it,
and `Update` hands a project with the empty Name to the store's Update and returns
it, both with a nil error, although `Validate` rejects either project. -/
theorem New_and_Update_skip_validation {σ : Type} (g : Globals σ) (ig : IdentityGenerator σ)
    (store : Adder σ) (collection : ReaderUpdater σ) (author user id : String) (data : Data)
    (w0 w1 n2 n3 u2 u3 u4 : σ) (decoded stored : Project)
    (calls : List (Option metadata.Identity)) (identity : metadata.Identity) (now : Time)
    (hdec : g.Decode {} data w0 = ((decoded, none), w1))
    (hname : decoded.Name = "")
    (hst : ig.AddMeta author "project" decoded.GetIdentity w1 = ((calls, none), n2))
    (hadd : store.AddOne (calls.foldl Project.AddIdentity decoded) n2 = (none, n3))
    (hget : collection.Get id {} w1 = ((stored, none), u2))
    (hid : stored.Identity = some identity)
    (hnow : g.Now u2 = (now, u3))
    (hupd : collection.Update id (updatedItem decoded identity user now) u3 = (none, u4)) :
    (∃ p : Project,
      (New g ig store author data w0).out = (Any.projectPtr p, none) ∧
      addOneCalls (New g ig store author data w0).trace = [p] ∧
      p.Name = "" ∧
      p.Validate = some (Error.validation "name is a mandatory parameter")) ∧
    (∃ p : Project,
      (Update g collection user id data w0).out = Outcome.returned (Any.projectPtr p) none ∧
      updateCalls (Update g collection user id data w0).trace = [(id, p)] ∧
      p.Name = "" ∧
      p.Validate = some (Error.validation "name is a mandatory parameter")) := by
  constructor
  · refine ⟨calls.foldl Project.AddIdentity decoded, ?_, ?_, ?_, ?_⟩
    · rw [New_decoded_run g ig store author data w0 w1 n2 decoded calls none hdec hst]
      simp [hadd]
    · rw [New_decoded_run g ig store author data w0 w1 n2 decoded calls none hdec hst]
      simp [addOneCalls]
    · rw [(foldl_AddIdentity_content calls decoded).1, hname]
    · simp [Project.Validate, metadata.NewValidationError,
        (foldl_AddIdentity_content calls decoded).1, hname]
  · refine ⟨updatedItem decoded identity user now, ?_, ?_, ?_, ?_⟩
    · rw [Update_success_run g collection user id data w0 w1 u2 u3 u4 decoded stored identity
        now none hdec hget hid hnow hupd]
      rfl
    · rw [Update_success_run g collection user id data w0 w1 u2 u3 u4 decoded stored identity
        now none hdec hget hid hnow hupd]
      rfl
    · exact hname
    · simp [Project.Validate, metadata.NewValidationError, updatedItem, hname]

/-- C9 in the small world: the payload "unnamed" decodes to a project without a name. -/
theorem New_and_Update_skip_validation_witness :
    ((New memGlobals memStamper memAdder "alice" "unnamed" mem0).out
        = (Any.projectPtr ⟨some ⟨"p2", "project", "alice", 7, "alice", 7⟩, "", "no name given"⟩,
            none) ∧
      (Update memGlobals memStore "bob" "p1" "unnamed" mem0).out
        = Outcome.returned
            (Any.projectPtr ⟨some ⟨"p1", "project", "alice", 3, "bob", 8⟩, "", "no name given"⟩)
            none) ∧
    (∃ p : Project,
      (New memGlobals memStamper memAdder "alice" "unnamed" mem0).out
        = (Any.projectPtr p, none) ∧
      addOneCalls (New memGlobals memStamper memAdder "alice" "unnamed" mem0).trace = [p] ∧
      p.Name = "" ∧
      p.Validate = some (Error.validation "name is a mandatory parameter")) ∧
    (∃ p : Project,
      (Update memGlobals memStore "bob" "p1" "unnamed" mem0).out
        = Outcome.returned (Any.projectPtr p) none ∧
      updateCalls (Update memGlobals memStore "bob" "p1" "unnamed" mem0).trace = [("p1", p)] ∧
      p.Name = "" ∧
      p.Validate = some (Error.validation "name is a mandatory parameter")) :=
  ⟨by decide,
    New_and_Update_skip_validation memGlobals memStamper memAdder memStore "alice" "bob" "p1"
      "unnamed" mem0 mem0 mem0
      ⟨7, mem0.records ++ [⟨some ⟨"p2", "project", "alice", 7, "alice", 7⟩, "", "no name given"⟩]⟩
      mem0 ⟨8, mem0.records⟩
      ⟨8, [⟨some ⟨"p1", "project", "alice", 3, "bob", 8⟩, "", "no name given"⟩,
        ⟨none, "Draft", "unstamped"⟩]⟩
      ⟨none, "", "no name given"⟩ ⟨some aliceIdentity, "Checkout", "first"⟩
      [some ⟨"p2", "project", "alice", 7, "alice", 7⟩] aliceIdentity 8
      (by decide) rfl (by decide) (by decide) (by decide) rfl (by decide) (by decide)⟩

/-! ## List -/

/-- Overwriting the head of the unfilled part of a list. -/
theorem set_after_filled {α : Type} (filled : List α) (a b : α) (rest : List α) :
    (filled ++ a :: rest).set filled.length b = filled ++ b :: rest := by
  induction filled with
  | nil => rfl
  | cons p filled ih => simp [ih]

/-- The loop of `List`, started at any index: storing the image of every element at
its index turns the unfilled tail into the images, in order. -/
theorem fill_by_index {α β : Type} (f : α → β) (z : β) (xs : List α) (filled : List β) :
    (xs.enumFrom filled.length).foldl (fun items iv => items.set iv.1 (f iv.2))
        (filled ++ List.replicate xs.length z)
      = filled ++ xs.map f := by
  induction xs generalizing filled with
  | nil => simp
  | cons x xs ih =>
    have h := ih (filled ++ [f x])
    simp only [List.length_append, List.length_singleton, List.append_assoc,
      List.singleton_append] at h
    simp only [List.enumFrom_cons, List.foldl_cons, List.length_cons, List.replicate_succ,
      set_after_filled, List.map_cons]
    exact h

/-- The run of `List` in terms of what the store's GetAll answers. -/
theorem ListProjects_run {σ : Type} (collection : Getter σ) (w0 w1 : σ) (ps : Slice Project)
    (gerr : Option ExtError) (hall : collection.GetAll (some []) w0 = ((ps, gerr), w1)) :
    ListProjects collection w0 =
      ⟨gerr.elim (some (ps.elems.map Any.projectVal), none)
          (fun err => (none, some (Error.external err))),
        w1, [⟨Call.getAll, gerr⟩]⟩ := by
  cases gerr with
  | some err => simp [ListProjects, hall]
  | none =>
    have h := fill_by_index Any.projectVal Any.nil ps.elems []
    simp only [List.length_nil, List.nil_append] at h
    simp [ListProjects, hall, Slice.len, List.enum, h]

/-- C7. When the store's GetAll yields the projects `ps` without error, `List`
returns, with a nil error, a non-nil sequence of the same length whose i-th element
is the i-th project of `ps`, for every i: store order kept, nothing dropped,
duplicated or re-sorted. When the store yields nothing the result is the empty
non-nil sequence. When GetAll fails, `List` returns the nil sequence and that
error. -/
theorem List_keeps_store_sequence {σ : Type} (collection : Getter σ) (w0 w1 : σ)
    (ps : Slice Project) (gerr : Option ExtError)
    (hall : collection.GetAll (some []) w0 = ((ps, gerr), w1)) :
    (gerr = none →
      ∃ items : List Any,
        (ListProjects collection w0).out = (some items, none) ∧
        items.length = ps.len ∧
        (∀ i : Nat, items[i]? = ps.elems[i]?.map Any.projectVal) ∧
        items = ps.elems.map Any.projectVal ∧
        (ps.elems = [] → items = [])) ∧
    (∀ err, gerr = some err →
      (ListProjects collection w0).out = (none, some (Error.external err))) := by
  rw [ListProjects_run collection w0 w1 ps gerr hall]
  constructor
  · intro h
    subst h
    refine ⟨ps.elems.map Any.projectVal, rfl, by simp [Slice.len], ?_, rfl, ?_⟩
    · intro i
      simp
    · intro hnil
      simp [hnil]
  · intro err h
    subst h
    rfl

/-- C7 in the small world: two records, then none, then a store that is down. -/
theorem List_keeps_store_sequence_witness :
    (ListProjects memGetter mem0).out
      = (some [Any.projectVal ⟨some aliceIdentity, "Checkout", "first"⟩,
          Any.projectVal ⟨none, "Draft", "unstamped"⟩], none) ∧
    (ListProjects memGetter ⟨0, []⟩).out = (some [], none) ∧
    (ListProjects brokenStore.toGetter mem0).out
      = (none, some (Error.external ⟨ErrorKind.storeError, "backend down"⟩)) ∧
    ∃ items : List Any,
      (ListProjects memGetter mem0).out = (some items, none) ∧
      items.length = Slice.len (some mem0.records) ∧
      (∀ i : Nat, items[i]? = (Slice.elems (some mem0.records))[i]?.map Any.projectVal) ∧
      items = (Slice.elems (some mem0.records)).map Any.projectVal ∧
      (Slice.elems (some mem0.records) = [] → items = []) :=
  ⟨by decide, by decide, by decide,
    (List_keeps_store_sequence memGetter mem0 mem0 (some mem0.records) none (by decide)).1 rfl⟩

/-! ## Errors -/

/-- Every error `New` returns comes with a nil entity and is the error of the first
failing collaborator call. -/
theorem New_error_passed_through {σ : Type} (g : Globals σ) (ig : IdentityGenerator σ)
    (store : Adder σ) (author : String) (data : Data) (w0 : σ) (v : Any) (e : Error)
    (h : (New g ig store author data w0).out = (v, some e)) :
    v = Any.nil ∧ passedThrough (New g ig store author data w0).trace e = true := by
  rcases hdec : g.Decode {} data w0 with ⟨⟨decoded, _ | derr⟩, w1⟩
  · rcases hst : ig.AddMeta author "project" decoded.GetIdentity w1 with ⟨⟨calls, serr⟩, w2⟩
    rw [New_decoded_run g ig store author data w0 w1 w2 decoded calls serr hdec hst] at h ⊢
    cases serr with
    | some err =>
      simp only [Option.elim, Prod.mk.injEq, Option.some.injEq] at h
      obtain ⟨hv, he⟩ := h
      subst hv he
      simp [passedThrough, firstFailure, lastError]
    | none =>
      rcases hadd : store.AddOne (calls.foldl Project.AddIdentity decoded) w2 with ⟨_ | err, w3⟩
      · simp [hadd] at h
      · simp only [hadd, Option.elim, Prod.mk.injEq, Option.some.injEq] at h
        obtain ⟨hv, he⟩ := h
        subst hv he
        simp [hadd, passedThrough, firstFailure, lastError]
  · rw [New_decode_failure_run g ig store author data w0 w1 decoded derr hdec] at h ⊢
    simp only [Prod.mk.injEq, Option.some.injEq] at h
    obtain ⟨hv, he⟩ := h
    subst hv he
    simp [passedThrough, firstFailure, lastError]

/-- What `Get` returns, in terms of what the store's Get answers. -/
theorem Get_run {σ : Type} (collectiom : Getter σ) (id : String) (w0 w1 : σ) (project : Project)
    (gerr : Option ExtError) (hget : collectiom.Get id {} w0 = ((project, gerr), w1)) :
    Get collectiom id w0 =
      ⟨gerr.elim (Any.projectPtr project, none) (fun err => (Any.nil, some (Error.external err))),
        w1, [⟨Call.get id, gerr⟩]⟩ := by
  cases gerr <;> simp [Get, hget]

/-- What `Delete` returns, in terms of what the store's Delete answers. -/
theorem Delete_run {σ : Type} (collection : Deleter σ) (id : String) (w0 : σ) :
    Delete collection id w0 =
      ⟨(collection.Delete id w0).1.map Error.external, (collection.Delete id w0).2,
        [⟨Call.delete id, (collection.Delete id w0).1⟩]⟩ := by
  rcases hdel : collection.Delete id w0 with ⟨_ | err, w1⟩ <;> simp [Delete, hdel]

/-- Every error `Update` returns comes with a nil entity and is the error of the
first failing collaborator call; it is never an error built by `Update` itself. -/
theorem Update_error_passed_through {σ : Type} (g : Globals σ) (collection : ReaderUpdater σ)
    (user id : String) (data : Data) (w0 : σ) (v : Any) (e : Error)
    (h : (Update g collection user id data w0).out = Outcome.returned v (some e)) :
    v = Any.nil ∧ passedThrough (Update g collection user id data w0).trace e = true := by
  rcases hdec : g.Decode {} data w0 with ⟨⟨decoded, _ | derr⟩, w1⟩
  · rcases hget : collection.Get id {} w1 with ⟨⟨stored, _ | gerr⟩, w2⟩
    · rcases hnow : g.Now w2 with ⟨now, w3⟩
      rcases hid : stored.Identity with _ | identity
      · rw [Update_nil_identity_run g collection user id data w0 w1 w2 w3 decoded stored now
          hdec hget hid hnow] at h
        simp at h
      · rcases hupd : collection.Update id (updatedItem decoded identity user now) w3
          with ⟨uerr, w4⟩
        rw [Update_success_run g collection user id data w0 w1 w2 w3 w4 decoded stored identity
          now uerr hdec hget hid hnow hupd] at h ⊢
        cases uerr with
        | none => simp at h
        | some err =>
          simp only [Option.elim, Outcome.returned.injEq, Option.some.injEq] at h
          obtain ⟨hv, he⟩ := h
          subst hv he
          simp [passedThrough, firstFailure, lastError]
    · rw [Update_get_failure_run g collection user id data w0 w1 w2 decoded stored gerr
        hdec hget] at h ⊢
      simp only [Outcome.returned.injEq, Option.some.injEq] at h
      obtain ⟨hv, he⟩ := h
      subst hv he
      simp [passedThrough, firstFailure, lastError]
  · rw [Update_decode_failure_run g collection user id data w0 w1 decoded derr hdec] at h ⊢
    simp only [Outcome.returned.injEq, Option.some.injEq] at h
    obtain ⟨hv, he⟩ := h
    subst hv he
    simp [passedThrough, firstFailure, lastError]

/-- C8. For each of `New`, `List`, `Get`, `Delete` and `Update` and every input: an
error the operation returns comes with a nil entity and is the error value of the
first failing collaborator call, unchanged, that call being the last one made. No
operation returns an error it built itself; in particular `Update` never returns
its "invalid data structure in DB" error. `Delete` and `Get` return exactly the
store's error, so a nil error exactly when the store call returns nil. -/
theorem errors_pass_through_unchanged {σ : Type} (g : Globals σ) (ig : IdentityGenerator σ)
    (store : Adder σ) (getter : Getter σ) (deleter : Deleter σ) (collection : ReaderUpdater σ)
    (author user id : String) (data : Data) (w0 : σ) :
    (∀ v e, (New g ig store author data w0).out = (v, some e) →
      v = Any.nil ∧ passedThrough (New g ig store author data w0).trace e = true) ∧
    (∀ items e, (ListProjects getter w0).out = (items, some e) →
      items = none ∧ passedThrough (ListProjects getter w0).trace e = true) ∧
    (∀ v e, (Get getter id w0).out = (v, some e) →
      v = Any.nil ∧ passedThrough (Get getter id w0).trace e = true) ∧
    (∀ e, (Delete deleter id w0).out = some e →
      passedThrough (Delete deleter id w0).trace e = true) ∧
    (∀ v e, (Update g collection user id data w0).out = Outcome.returned v (some e) →
      v = Any.nil ∧ passedThrough (Update g collection user id data w0).trace e = true) ∧
    (∀ v msg, (Update g collection user id data w0).out
      ≠ Outcome.returned v (some (Error.errorf msg))) ∧
    ((Delete deleter id w0).out = (deleter.Delete id w0).1.map Error.external) ∧
    ((Delete deleter id w0).out = none ↔ (deleter.Delete id w0).1 = none) ∧
    ((Get getter id w0).out.2 = (getter.Get id {} w0).1.2.map Error.external) ∧
    ((Get getter id w0).out.2 = none ↔ (getter.Get id {} w0).1.2 = none) := by
  refine ⟨?_, ?_, ?_, ?_, ?_, ?_, ?_, ?_, ?_, ?_⟩
  · intro v e h
    exact New_error_passed_through g ig store author data w0 v e h
  · intro items e h
    rcases hall : getter.GetAll (some []) w0 with ⟨⟨ps, gerr⟩, w1⟩
    rw [ListProjects_run getter w0 w1 ps gerr hall] at h ⊢
    cases gerr with
    | none => simp at h
    | some err =>
      simp only [Option.elim, Prod.mk.injEq, Option.some.injEq] at h
      obtain ⟨hv, he⟩ := h
      subst hv he
      simp [passedThrough, firstFailure, lastError]
  · intro v e h
    rcases hget : getter.Get id {} w0 with ⟨⟨project, gerr⟩, w1⟩
    rw [Get_run getter id w0 w1 project gerr hget] at h ⊢
    cases gerr with
    | none => simp at h
    | some err =>
      simp only [Option.elim, Prod.mk.injEq, Option.some.injEq] at h
      obtain ⟨hv, he⟩ := h
      subst hv he
      simp [passedThrough, firstFailure, lastError]
  · intro e h
    rw [Delete_run deleter id w0] at h ⊢
    rcases hdel : deleter.Delete id w0 with ⟨_ | err, w1⟩
    · simp [hdel] at h
    · simp only [hdel, Option.map_some', Option.some.injEq] at h
      subst h
      simp [passedThrough, firstFailure, lastError]
  · intro v e h
    exact Update_error_passed_through g collection user id data w0 v e h
  · intro v msg h
    have hp := (Update_error_passed_through g collection user id data w0 v _ h).2
    simp [passedThrough] at hp
  · rw [Delete_run deleter id w0]
  · rw [Delete_run deleter id w0]
    cases (deleter.Delete id w0).1 <;> simp
  · rcases hget : getter.Get id {} w0 with ⟨⟨project, gerr⟩, w1⟩
    rw [Get_run getter id w0 w1 project gerr hget]
    cases gerr <;> rfl
  · rcases hget : getter.Get id {} w0 with ⟨⟨project, gerr⟩, w1⟩
    rw [Get_run getter id w0 w1 project gerr hget]
    cases gerr <;> simp

/-- C8 in the small world, against the store that is down: `Update` returns the
store's error with a nil entity, and so does `Get`. -/
theorem errors_pass_through_unchanged_witness :
    (Update memGlobals brokenStore "bob" "p1" "checkout" mem0).out
      = Outcome.returned Any.nil
          (some (Error.external ⟨ErrorKind.storeError, "backend down"⟩)) ∧
    (Any.nil = Any.nil ∧
      passedThrough (Update memGlobals brokenStore "bob" "p1" "checkout" mem0).trace
        (Error.external ⟨ErrorKind.storeError, "backend down"⟩) = true) ∧
    (Get brokenStore.toGetter "p1" mem0).out.2
      = some (Error.external ⟨ErrorKind.storeError, "backend down"⟩) :=
  ⟨by decide,
    (errors_pass_through_unchanged memGlobals memStamper memAdder brokenStore.toGetter
      memDeleter brokenStore "alice" "bob" "p1" "checkout" mem0).2.2.2.2.1 Any.nil
      (Error.external ⟨ErrorKind.storeError, "backend down"⟩) (by decide),
    (errors_pass_through_unchanged memGlobals memStamper memAdder brokenStore.toGetter
      memDeleter brokenStore "alice" "bob" "p1" "checkout" mem0).2.2.2.2.2.2.2.2.1⟩

end projects
